import Mathlib

/-!
Shallow embedding of the Bxthre3 Controller (`bxthre3_controller.py`):
the DAG dependency state machine, the task scheduler, the message
handlers and the background reaper loop, together with theorems about
the properties claimed of them.

Python dicts are modelled as insertion-ordered association lists
(`List (String × α)`): assignment overwrites in place or appends at the
end, deletion removes the entry, exactly as CPython dicts behave.
Wall-clock time (`time.time()`) is modelled as a `Nat` parameter.
-/

namespace Bxthre3

/-- `d[k]` lookup on a Python dict (`None` when the key is absent). -/
def dictGet {α : Type} : List (String × α) → String → Option α
  | [], _ => none
  | (k', v) :: rest, k => if k' = k then some v else dictGet rest k

/-- `d[k] = v` on a Python dict: overwrite in place, else append at the end. -/
def dictSet {α : Type} : List (String × α) → String → α → List (String × α)
  | [], k, v => [(k, v)]
  | (k', v') :: rest, k, v =>
    if k' = k then (k, v) :: rest else (k', v') :: dictSet rest k v

/-- `del d[k]` on a Python dict (no-op here when the key is absent; the
embedding only applies it where the source guards or the theorem's
hypotheses guarantee presence, since CPython would raise `KeyError`). -/
def dictDel {α : Type} : List (String × α) → String → List (String × α)
  | [], _ => []
  | (k', v') :: rest, k => if k' = k then rest else (k', v') :: dictDel rest k

theorem dictGet_dictSet_self {α : Type} (d : List (String × α)) (k : String) (v : α) :
    dictGet (dictSet d k v) k = some v := by
  induction d with
  | nil => simp [dictSet, dictGet]
  | cons p rest ih =>
    obtain ⟨k', v'⟩ := p
    by_cases h : k' = k <;> simp [dictSet, dictGet, h, ih]

theorem dictGet_dictSet_ne {α : Type} (d : List (String × α)) (k k' : String) (v : α)
    (h : k' ≠ k) : dictGet (dictSet d k v) k' = dictGet d k' := by
  have h' : k ≠ k' := Ne.symm h
  induction d with
  | nil => simp [dictSet, dictGet, h']
  | cons p rest ih =>
    obtain ⟨k₀, v₀⟩ := p
    by_cases h₀ : k₀ = k
    · subst h₀
      simp [dictSet, dictGet, h']
    · simp [dictSet, dictGet, h₀, ih]

theorem keys_dictSet_of_mem {α : Type} (d : List (String × α)) (k : String) (v : α)
    (h : (dictGet d k).isSome) :
    (dictSet d k v).map Prod.fst = d.map Prod.fst := by
  induction d with
  | nil => simp [dictGet] at h
  | cons p rest ih =>
    obtain ⟨k', v'⟩ := p
    by_cases h' : k' = k
    · subst h'
      simp [dictSet]
    · simp [dictGet, h'] at h
      simp [dictSet, h', ih h]

theorem keys_dictSet_of_not_mem {α : Type} (d : List (String × α)) (k : String) (v : α)
    (h : dictGet d k = none) :
    (dictSet d k v).map Prod.fst = d.map Prod.fst ++ [k] := by
  induction d with
  | nil => simp [dictSet]
  | cons p rest ih =>
    obtain ⟨k', v'⟩ := p
    by_cases h' : k' = k
    · simp [dictGet, h'] at h
    · simp [dictGet, h'] at h
      simp [dictSet, h', ih h]

theorem length_dictSet_of_mem {α : Type} (d : List (String × α)) (k : String) (v : α)
    (h : (dictGet d k).isSome) : (dictSet d k v).length = d.length := by
  have := keys_dictSet_of_mem d k v h
  have h₁ : ((dictSet d k v).map Prod.fst).length = (d.map Prod.fst).length := by rw [this]
  simpa using h₁

theorem length_dictSet_of_not_mem {α : Type} (d : List (String × α)) (k : String) (v : α)
    (h : dictGet d k = none) : (dictSet d k v).length = d.length + 1 := by
  have := keys_dictSet_of_not_mem d k v h
  have h₁ : ((dictSet d k v).map Prod.fst).length = (d.map Prod.fst ++ [k]).length := by rw [this]
  simpa using h₁

theorem dictGet_eq_none_of_not_mem_keys {α : Type} (d : List (String × α)) (k : String)
    (h : k ∉ d.map Prod.fst) : dictGet d k = none := by
  induction d with
  | nil => simp [dictGet]
  | cons p rest ih =>
    obtain ⟨k', v'⟩ := p
    simp only [List.map_cons, List.mem_cons, not_or] at h
    simp [dictGet, Ne.symm h.1, ih h.2]

theorem mem_keys_of_dictGet_isSome {α : Type} (d : List (String × α)) (k : String)
    (h : (dictGet d k).isSome) : k ∈ d.map Prod.fst := by
  induction d with
  | nil => simp [dictGet] at h
  | cons p rest ih =>
    obtain ⟨k', v'⟩ := p
    by_cases h' : k' = k
    · simp [h']
    · simp [dictGet, h'] at h
      simp [ih h]

/-- Result record sent by a worker (`result` payload of a `task_result`
message): `success`, `output`, `error`, `duration`, `dag_id`. -/
structure TaskResult where
  success : Bool
  output : String
  error : String
  duration : Nat
  dagId : String
deriving DecidableEq, Repr

/-- Task descriptor: `id`, `module`, `depends_on` (absent modelled as `[]`,
matching `task.get("depends_on", [])`), and the `dag_id` key stamped by
`TaskScheduler.add_task` (absent before stamping). `inputs` is carried
opaquely as a list of strings. -/
structure Task where
  id : String
  module : String
  inputs : List String
  dependsOn : List String
  dagId : Option String
deriving DecidableEq, Repr

/-- `DAG` object state (`DAG.__init__` fields). -/
structure DAG where
  dagId : String
  name : String
  tasks : List Task
  status : String
  taskResults : List (String × TaskResult)
  taskDependencies : List (String × List String)
  createdAt : Nat
  startedAt : Option Nat
  completedAt : Option Nat
deriving DecidableEq, Repr

/-- `DAG._build_dependencies`: `deps[task["id"]] = task.get("depends_on", [])`
over the task list in order. -/
def buildDependencies (tasks : List Task) : List (String × List String) :=
  tasks.foldl (fun deps t => dictSet deps t.id t.dependsOn) []

/-- `DAG.__init__(dag_id, name, tasks)` at wall-clock time `now`. -/
def dagInit (dagId name : String) (tasks : List Task) (now : Nat) : DAG :=
  { dagId := dagId
    name := name
    tasks := tasks
    status := "pending"
    taskResults := []
    taskDependencies := buildDependencies tasks
    createdAt := now
    startedAt := none
    completedAt := none }

/-- `DAG.get_ready_tasks`: tasks with no recorded result all of whose
dependencies (looked up in `task_dependencies`, default `[]`) have a
recorded result. -/
def getReadyTasks (d : DAG) : List Task :=
  d.tasks.filter fun t =>
    (dictGet d.taskResults t.id).isNone &&
      (((dictGet d.taskDependencies t.id).getD []).all fun dep =>
        (dictGet d.taskResults dep).isSome)

/-- `DAG.update_task_result(task_id, result)` at wall-clock time `now`. -/
def updateTaskResult (d : DAG) (taskId : String) (result : TaskResult) (now : Nat) : DAG :=
  let results := dictSet d.taskResults taskId result
  if results.length = d.tasks.length then
    { d with taskResults := results, status := "completed", completedAt := some now }
  else if d.status = "pending" then
    { d with taskResults := results, status := "running",
             startedAt := if d.startedAt.isNone then some now else d.startedAt }
  else
    { d with taskResults := results }

/-- Value of `running_tasks[task_id]` in `TaskScheduler`. -/
structure RunInfo where
  nodeId : String
  task : Task
  startTime : Nat
deriving DecidableEq, Repr

/-- `TaskScheduler` state: `task_queue` (the ready FIFO), `pending_tasks`
(`pending_index`) and `running_tasks` (`in_flight`). -/
structure TaskScheduler where
  taskQueue : List Task
  pendingTasks : List (String × Task)
  runningTasks : List (String × RunInfo)
deriving DecidableEq, Repr

/-- `TaskScheduler.__init__`. -/
def schedulerInit : TaskScheduler :=
  { taskQueue := [], pendingTasks := [], runningTasks := [] }

/-- `TaskScheduler.add_task(task, dag_id)`: stamp `dag_id`, append to the
queue, index under the bare task id. -/
def addTask (s : TaskScheduler) (task : Task) (dagId : String) : TaskScheduler :=
  let task := { task with dagId := some dagId }
  { s with taskQueue := s.taskQueue ++ [task],
           pendingTasks := dictSet s.pendingTasks task.id task }

/-- `TaskScheduler.get_next_task(node_id)` at wall-clock time `now`:
pop the queue head, drop it from `pending_tasks`, record it in
`running_tasks` under the caller's id. -/
def getNextTask (s : TaskScheduler) (nodeId : String) (now : Nat) :
    Option Task × TaskScheduler :=
  match s.taskQueue with
  | [] => (none, s)
  | task :: rest =>
    (some task,
      { taskQueue := rest
        pendingTasks := dictDel s.pendingTasks task.id
        runningTasks := dictSet s.runningTasks task.id
          { nodeId := nodeId, task := task, startTime := now } })

/-- `TaskScheduler.complete_task(task_id, result)`. -/
def completeTask (s : TaskScheduler) (taskId : String) : TaskScheduler :=
  if (dictGet s.runningTasks taskId).isSome then
    { s with runningTasks := dictDel s.runningTasks taskId }
  else s

/-- `TaskScheduler.fail_task(task_id)`: drop from `running_tasks` and
re-queue the stored descriptor. -/
def failTask (s : TaskScheduler) (taskId : String) : TaskScheduler :=
  match dictGet s.runningTasks taskId with
  | none => s
  | some info =>
    { taskQueue := s.taskQueue ++ [info.task]
      pendingTasks := dictSet s.pendingTasks info.task.id info.task
      runningTasks := dictDel s.runningTasks taskId }

/-- `Node` object state (`Node.__init__` fields). The socket (`conn`) and
peer address (`addr`) are connection plumbing and carry no claim-relevant
state; `completed_tasks` entries are `(task_id, result, timestamp)`. -/
structure Node where
  nodeId : String
  ramLimit : Nat
  status : String
  currentTask : Option String
  taskCount : Nat
  lastHeartbeat : Nat
  completedTasks : List (String × TaskResult × Nat)
deriving DecidableEq, Repr

/-- `Node.__init__(node_id, conn, addr, ram_limit)` at wall-clock `now`. -/
def nodeInit (nodeId : String) (ramLimit : Nat) (now : Nat) : Node :=
  { nodeId := nodeId
    ramLimit := ramLimit
    status := "idle"
    currentTask := none
    taskCount := 0
    lastHeartbeat := now
    completedTasks := [] }

/-- `Node.is_alive`: `time.time() - last_heartbeat < 60`. -/
def isAlive (n : Node) (now : Nat) : Bool :=
  now - n.lastHeartbeat < 60

/-- The Controller's three state tables (`ControllerNode.__init__`). -/
structure ControllerState where
  nodes : List (String × Node)
  dags : List (String × DAG)
  scheduler : TaskScheduler
deriving DecidableEq, Repr

/-- JSON responses written by the message handlers, one constructor per
response shape that occurs in the source. -/
inductive Response where
  | success (message : Option String)
  | successTask (task : Option Task)
  | successDag (dag : DAG)
  | successDagId (dagId : String)
  | error (message : String)
deriving DecidableEq, Repr

/-- `ControllerNode._handle_register_node`. -/
def handleRegisterNode (s : ControllerState) (nodeId : String) (ramLimit : Nat)
    (now : Nat) : Response × ControllerState :=
  (Response.success (some "Registered"),
    { s with nodes := dictSet s.nodes nodeId (nodeInit nodeId ramLimit now) })

/-- `ControllerNode._handle_heartbeat`. -/
def handleHeartbeat (s : ControllerState) (nodeId : String) (now : Nat) :
    Response × ControllerState :=
  match dictGet s.nodes nodeId with
  | some n =>
    (Response.success none,
      { s with nodes := dictSet s.nodes nodeId { n with lastHeartbeat := now } })
  | none => (Response.error "Node not found", s)

/-- `ControllerNode._handle_get_task`. -/
def handleGetTask (s : ControllerState) (nodeId : String) (now : Nat) :
    Response × ControllerState :=
  let res := getNextTask s.scheduler nodeId now
  match res.1 with
  | some task =>
    let nodes :=
      match dictGet s.nodes nodeId with
      | some n =>
        dictSet s.nodes nodeId { n with status := "busy", currentTask := some task.id }
      | none => s.nodes
    (Response.successTask (some task), { s with scheduler := res.2, nodes := nodes })
  | none => (Response.successTask none, { s with scheduler := res.2 })

/-- `ControllerNode._handle_get_dag_status`. -/
def handleGetDagStatus (s : ControllerState) (dagId : String) :
    Response × ControllerState :=
  match dictGet s.dags dagId with
  | some d => (Response.successDag d, s)
  | none => (Response.error "DAG not found", s)

/-- `ControllerNode._schedule_dag_tasks`: for each ready task of the DAG,
enqueue it unless its bare id is already in `pending_tasks` or
`running_tasks`. -/
def scheduleDagTasks (s : ControllerState) (dagId : String) : ControllerState :=
  match dictGet s.dags dagId with
  | none => s
  | some dag =>
    { s with
      scheduler :=
        (getReadyTasks dag).foldl
          (fun sch t =>
            if (dictGet sch.pendingTasks t.id).isNone &&
                (dictGet sch.runningTasks t.id).isNone then
              addTask sch t dagId
            else sch)
          s.scheduler }

/-- `ControllerNode._handle_submit_dag`; the fresh eight-character
`dag_id` drawn from `uuid.uuid4()` is passed in as `freshDagId`. -/
def handleSubmitDag (s : ControllerState) (freshDagId name : String)
    (tasks : List Task) (now : Nat) : Response × ControllerState :=
  let dag := dagInit freshDagId name tasks now
  let s := { s with dags := dictSet s.dags freshDagId dag }
  (Response.successDagId freshDagId, scheduleDagTasks s freshDagId)

/-- `ControllerNode._handle_task_result`. A missing or empty `dag_id` in
the result is falsy in Python (`if dag_id:`), modelled as `""`. -/
def handleTaskResult (s : ControllerState) (nodeId taskId : String)
    (result : TaskResult) (now : Nat) : Response × ControllerState :=
  let sched :=
    if result.success then completeTask s.scheduler taskId
    else failTask s.scheduler taskId
  let dags :=
    if result.dagId ≠ "" then
      match dictGet s.dags result.dagId with
      | some d => dictSet s.dags result.dagId (updateTaskResult d taskId result now)
      | none => s.dags
    else s.dags
  let nodes :=
    match dictGet s.nodes nodeId with
    | some n =>
      dictSet s.nodes nodeId
        { n with status := "idle", currentTask := none, taskCount := n.taskCount + 1,
                 completedTasks := n.completedTasks ++ [(taskId, result, now)] }
    | none => s.nodes
  let s := { s with scheduler := sched, dags := dags, nodes := nodes }
  let s := if result.dagId ≠ "" then scheduleDagTasks s result.dagId else s
  (Response.success none, s)

/-- The inner loop of `ControllerNode._health_check_loop` that scans
`running_tasks.items()` for entries of a dead node while deleting matched
entries from the same dict. CPython raises
`RuntimeError: dictionary changed size during iteration` at the iterator
step that follows any deletion, so at most the first matching entry is
re-queued; the returned `Bool` is `true` when that `RuntimeError` fires. -/
def reapScan (nodeId : String) :
    List (String × RunInfo) → TaskScheduler → Bool × TaskScheduler
  | [], sch => (false, sch)
  | (tid, info) :: rest, sch =>
    if info.nodeId = nodeId then
      (true,
        { taskQueue := sch.taskQueue ++ [info.task]
          pendingTasks := dictSet sch.pendingTasks info.task.id info.task
          runningTasks := dictDel sch.runningTasks tid })
    else reapScan nodeId rest sch

/-- One dead node's handling in `_health_check_loop` (`if node_id in
self.nodes:` body). `true` means the scan raised and the `del
self.nodes[node_id]` line was never reached. -/
def reapNode (s : ControllerState) (nodeId : String) : Bool × ControllerState :=
  if (dictGet s.nodes nodeId).isSome then
    let res := reapScan nodeId s.scheduler.runningTasks s.scheduler
    if res.1 then (true, { s with scheduler := res.2 })
    else (false, { s with scheduler := res.2, nodes := dictDel s.nodes nodeId })
  else (false, s)

/-- The `for node_id in dead_nodes:` loop; an uncaught `RuntimeError`
aborts it (and kills the daemon thread), leaving later dead nodes
unprocessed. -/
def reapNodes : List String → ControllerState → Bool × ControllerState
  | [], s => (false, s)
  | nid :: rest, s =>
    let res := reapNode s nid
    if res.1 then (true, res.2) else reapNodes rest res.2

/-- One tick of `ControllerNode._health_check_loop` at wall-clock `now`:
collect the ids of nodes whose heartbeat has aged out, then reap them.
The `Bool` is `true` when the tick died with a `RuntimeError`. -/
def healthCheckTick (s : ControllerState) (now : Nat) : Bool × ControllerState :=
  let dead := (s.nodes.filter fun p => ! isAlive p.2 now).map Prod.fst
  reapNodes dead s

/-- `ControllerNode._recv_exact(conn, n)` over a byte stream modelled as
the list of bytes the peer will deliver before closing: `none` exactly
when the peer closes before `n` bytes arrive. -/
def recvExact (data : List Nat) (n : Nat) : Option (List Nat × List Nat) :=
  if n ≤ data.length then some (data.take n, data.drop n) else none

/-- `int.from_bytes(length_data, byteorder="big")`. -/
def bytesToNatBE (bs : List Nat) : Nat :=
  bs.foldl (fun acc b => acc * 256 + b) 0

/-- The frame-reading prefix of `ControllerNode._handle_connection`: read
4 length bytes, decode them big-endian, then read exactly that many
payload bytes. There is no length-cap check anywhere on this path. -/
def readFrame (data : List Nat) : Option (List Nat × List Nat) :=
  match recvExact data 4 with
  | none => none
  | some pr =>
    match recvExact pr.2 (bytesToNatBE pr.1) with
    | none => none
    | some pr' => some pr'

theorem dictGet_isSome_of_mem_keys {α : Type} (d : List (String × α)) (k : String)
    (h : k ∈ d.map Prod.fst) : (dictGet d k).isSome := by
  induction d with
  | nil => simp at h
  | cons p rest ih =>
    obtain ⟨k', v'⟩ := p
    by_cases h' : k' = k
    · simp [dictGet, h']
    · simp only [List.map_cons, List.mem_cons] at h
      rcases h with h | h
      · exact absurd h.symm h'
      · simp [dictGet, h', ih h]

theorem length_le_of_nodup_subset {l₁ l₂ : List String} (h₁ : l₁.Nodup)
    (h₂ : ∀ x ∈ l₁, x ∈ l₂) : l₁.length ≤ l₂.length := by
  calc l₁.length = l₁.toFinset.card := (List.toFinset_card_of_nodup h₁).symm
    _ ≤ l₂.toFinset.card := by
        apply Finset.card_le_card
        intro x hx
        rw [List.mem_toFinset] at hx ⊢
        exact h₂ x hx
    _ ≤ l₂.length := l₂.toFinset_card_le

theorem taskResults_updateTaskResult (d : DAG) (tid : String) (r : TaskResult) (now : Nat) :
    (updateTaskResult d tid r now).taskResults = dictSet d.taskResults tid r := by
  unfold updateTaskResult
  by_cases h1 : (dictSet d.taskResults tid r).length = d.tasks.length
  · simp [h1]
  · by_cases h2 : d.status = "pending" <;> simp [h1, h2]

theorem tasks_updateTaskResult (d : DAG) (tid : String) (r : TaskResult) (now : Nat) :
    (updateTaskResult d tid r now).tasks = d.tasks := by
  unfold updateTaskResult
  by_cases h1 : (dictSet d.taskResults tid r).length = d.tasks.length
  · simp [h1]
  · by_cases h2 : d.status = "pending" <;> simp [h1, h2]

/-- Sample task with no dependencies. -/
def taskA : Task :=
  { id := "a", module := "m", inputs := [], dependsOn := [], dagId := none }

/-- Sample task depending on `taskA`. -/
def taskB : Task :=
  { id := "b", module := "m", inputs := [], dependsOn := ["a"], dagId := none }

/-- Sample successful result record. -/
def resultOk : TaskResult :=
  { success := true, output := "ok", error := "", duration := 1, dagId := "d" }

/-- Sample failed result record. -/
def resultFail : TaskResult :=
  { success := false, output := "", error := "boom", duration := 1, dagId := "d" }

/-- A Controller with no workers, no DAGs and an empty scheduler. -/
def emptyState : ControllerState :=
  { nodes := [], dags := [], scheduler := schedulerInit }

/-- C7: a `heartbeat` whose `node_id` is not registered and a
`get_dag_status` whose `dag_id` is unknown each return `status=error`
with a message (exactly "DAG not found" for the latter) and leave the
Controller state (Workers, DAGs, Scheduler) entirely unchanged. -/
theorem c7_unknown_id_error_responses (s : ControllerState) (nodeId dagId : String)
    (now : Nat) (hn : dictGet s.nodes nodeId = none)
    (hd : dictGet s.dags dagId = none) :
    handleHeartbeat s nodeId now = (Response.error "Node not found", s) ∧
    handleGetDagStatus s dagId = (Response.error "DAG not found", s) := by
  constructor
  · unfold handleHeartbeat
    rw [hn]
  · unfold handleGetDagStatus
    rw [hd]

/-- C7 witness: on the empty Controller state, an unknown heartbeat and
an unknown DAG query produce the two error responses. -/
theorem c7_unknown_id_error_responses_witness :
    handleHeartbeat emptyState "w1" 5 = (Response.error "Node not found", emptyState) ∧
    handleGetDagStatus emptyState "nope" = (Response.error "DAG not found", emptyState) :=
  c7_unknown_id_error_responses emptyState "w1" "nope" 5 rfl rfl

/-- C4 counterexample: for a single-task DAG, the first ingested task
result drives the DAG straight into the `completed` branch, which never
stamps `started_at`: it stays `none`, not a non-null timestamp. -/
theorem c4_counterexample_single_task_dag :
    (updateTaskResult (dagInit "d" "one" [taskA] 0) "a" resultOk 5).taskResults.length = 1 ∧
    (updateTaskResult (dagInit "d" "one" [taskA] 0) "a" resultOk 5).startedAt = none := by
  constructor <;> rfl

/-- C4 (amended): for every DAG with at least two tasks, `started_at` is
a non-null timestamp after the first ingested task result; for a
single-task DAG the first ingest completes the DAG without ever setting
`started_at`. -/
theorem c4_started_at_on_first_ingest (did name : String) (tasks : List Task)
    (t0 : Nat) (tid : String) (r : TaskResult) (now : Nat)
    (h : 2 ≤ tasks.length) :
    (updateTaskResult (dagInit did name tasks t0) tid r now).startedAt = some now := by
  have h1 : (dictSet (dagInit did name tasks t0).taskResults tid r).length ≠ tasks.length := by
    simp only [dagInit, dictSet, List.length_cons, List.length_nil]
    omega
  unfold updateTaskResult
  rw [if_neg (by simpa [dagInit] using h1), if_pos (by simp [dagInit])]
  simp [dagInit]

/-- C4 witness: on a two-task DAG the first ingest stamps `started_at`. -/
theorem c4_started_at_on_first_ingest_witness :
    (updateTaskResult (dagInit "d" "two" [taskA, taskB] 0) "a" resultOk 5).startedAt = some 5 :=
  c4_started_at_on_first_ingest "d" "two" [taskA, taskB] 0 "a" resultOk 5 (by decide)

/-- C5 counterexample: ingesting a second result for an already-recorded
task id (the failure-then-retry flow) overwrites the stored record: after
recording `resultFail` for task `a` and then `resultOk` for `a`, the
entry under `a` is `resultOk`, not the originally stored `resultFail`. -/
theorem c5_counterexample_result_overwritten :
    dictGet (updateTaskResult
        (updateTaskResult (dagInit "d" "two" [taskA, taskB] 0) "a" resultFail 1)
        "a" resultOk 2).taskResults "a" = some resultOk ∧
    resultOk ≠ resultFail := by
  constructor
  · rfl
  · decide

/-- C5 (amended): `task_results` is append-only in its key set: an
ingest never removes an existing entry's key, but an ingest for an
already-recorded task id replaces the stored record with the new one. -/
theorem c5_task_results_keys_append_only (d : DAG) (tid : String) (r : TaskResult)
    (now : Nat) (k : String) (h : (dictGet d.taskResults k).isSome) :
    (dictGet (updateTaskResult d tid r now).taskResults k).isSome ∧
    dictGet (updateTaskResult d tid r now).taskResults tid = some r := by
  rw [taskResults_updateTaskResult]
  constructor
  · by_cases hk : k = tid
    · subst hk
      rw [dictGet_dictSet_self]
      rfl
    · rw [dictGet_dictSet_ne _ _ _ _ hk]
      exact h
  · exact dictGet_dictSet_self _ _ _

/-- C5 witness: after recording a result for task `a`, a further ingest
for task `b` keeps `a`'s key present and stores `b`'s record. -/
theorem c5_task_results_keys_append_only_witness :
    (dictGet (updateTaskResult
        (updateTaskResult (dagInit "d" "two" [taskA, taskB] 0) "a" resultFail 1)
        "b" resultOk 2).taskResults "a").isSome ∧
    dictGet (updateTaskResult
        (updateTaskResult (dagInit "d" "two" [taskA, taskB] 0) "a" resultFail 1)
        "b" resultOk 2).taskResults "b" = some resultOk :=
  c5_task_results_keys_append_only
    (updateTaskResult (dagInit "d" "two" [taskA, taskB] 0) "a" resultFail 1)
    "b" resultOk 2 "a" (by decide)

/-- C6: `get_task` with a non-empty `ready_queue` pops exactly the queue
head, deletes that task id from `pending_index`, records it in
`in_flight` under the calling worker's id with the current time, and
returns the descriptor in a `status=success` response; with an empty
`ready_queue` it returns `status=success` with a null task and changes
nothing. (The hypothesis that the head's id is indexed in
`pending_index` reflects the queue/index mirror invariant, under which
the source's `del self.pending_tasks[task_id]` cannot raise.) -/
theorem c6_get_task_fifo_dispatch (s : ControllerState) (nodeId : String) (now : Nat) :
    (s.scheduler.taskQueue = [] →
      handleGetTask s nodeId now = (Response.successTask none, s)) ∧
    (∀ (t : Task) (rest : List Task), s.scheduler.taskQueue = t :: rest →
      (dictGet s.scheduler.pendingTasks t.id).isSome →
      handleGetTask s nodeId now =
        (Response.successTask (some t),
          { s with
            scheduler :=
              { taskQueue := rest
                pendingTasks := dictDel s.scheduler.pendingTasks t.id
                runningTasks := dictSet s.scheduler.runningTasks t.id
                  { nodeId := nodeId, task := t, startTime := now } }
            nodes :=
              match dictGet s.nodes nodeId with
              | some n =>
                dictSet s.nodes nodeId { n with status := "busy", currentTask := some t.id }
              | none => s.nodes })) := by
  constructor
  · intro h
    simp [handleGetTask, getNextTask, h]
  · intro t rest h _
    simp [handleGetTask, getNextTask, h]

/-- Controller state with one enqueued task `taskA` (mirrored in
`pending_tasks`), used as a concrete dispatch scenario. -/
def queuedState : ControllerState :=
  { nodes := [], dags := [],
    scheduler :=
      { taskQueue := [taskA], pendingTasks := [("a", taskA)], runningTasks := [] } }

/-- C6 witness: dispatch from the concrete one-task queue and from the
empty queue. -/
theorem c6_get_task_fifo_dispatch_witness :
    handleGetTask queuedState "w1" 7 =
      (Response.successTask (some taskA),
        { nodes := [], dags := [],
          scheduler :=
            { taskQueue := []
              pendingTasks := []
              runningTasks := [("a", { nodeId := "w1", task := taskA, startTime := 7 })] } }) ∧
    handleGetTask emptyState "w1" 7 = (Response.successTask none, emptyState) :=
  ⟨(c6_get_task_fifo_dispatch queuedState "w1" 7).2 taskA [] rfl rfl,
   (c6_get_task_fifo_dispatch emptyState "w1" 7).1 rfl⟩

/-- C9: a `get_task` for a `node_id` that was never registered still
dequeues the head task, records it in `in_flight` under that id, and
answers `status=success`; the Workers table is left untouched (the busy
marking is skipped), so the new `in_flight` entry names a worker absent
from the Workers table. -/
theorem c9_get_task_unregistered_node (s : ControllerState) (nodeId : String)
    (now : Nat) (t : Task) (rest : List Task)
    (hq : s.scheduler.taskQueue = t :: rest)
    (_hp : (dictGet s.scheduler.pendingTasks t.id).isSome)
    (hn : dictGet s.nodes nodeId = none) :
    (handleGetTask s nodeId now).1 = Response.successTask (some t) ∧
    (handleGetTask s nodeId now).2.scheduler.taskQueue = rest ∧
    dictGet (handleGetTask s nodeId now).2.scheduler.runningTasks t.id =
      some { nodeId := nodeId, task := t, startTime := now } ∧
    (handleGetTask s nodeId now).2.nodes = s.nodes ∧
    dictGet (handleGetTask s nodeId now).2.nodes nodeId = none := by
  simp [handleGetTask, getNextTask, hq, hn, dictGet_dictSet_self]

/-- C9 witness: the concrete one-task queue dispatched to the
unregistered node id `ghost`. -/
theorem c9_get_task_unregistered_node_witness :
    (handleGetTask queuedState "ghost" 3).1 = Response.successTask (some taskA) ∧
    (handleGetTask queuedState "ghost" 3).2.scheduler.taskQueue = [] ∧
    dictGet (handleGetTask queuedState "ghost" 3).2.scheduler.runningTasks "a" =
      some { nodeId := "ghost", task := taskA, startTime := 3 } ∧
    (handleGetTask queuedState "ghost" 3).2.nodes = queuedState.nodes ∧
    dictGet (handleGetTask queuedState "ghost" 3).2.nodes "ghost" = none :=
  c9_get_task_unregistered_node queuedState "ghost" 3 taskA [] rfl rfl rfl

/-- In-flight task of the dead worker in the reaper scenario. -/
def c1Task : Task :=
  { id := "t1", module := "m", inputs := [], dependsOn := [], dagId := some "d" }

/-- The dead worker in the reaper scenario (last heartbeat at time 0). -/
def c1Node : Node :=
  { nodeId := "w", ramLimit := 128, status := "busy", currentTask := some "t1",
    taskCount := 0, lastHeartbeat := 0, completedTasks := [] }

/-- Controller state in which worker `w` is dead at time 100 and holds
one in-flight task. -/
def c1State : ControllerState :=
  { nodes := [("w", c1Node)], dags := [],
    scheduler :=
      { taskQueue := [], pendingTasks := []
        runningTasks := [("t1", { nodeId := "w", task := c1Task, startTime := 10 })] } }

/-- C1 (code bug): at time 100, worker `w` (last heartbeat 0) is dead
with in-flight task `t1`. The reaper tick re-queues `t1` but then dies
with a `RuntimeError` (the loop deletes from `running_tasks` while
iterating it), so the Worker record of `w` is never removed from the
Workers table, contradicting the claimed reap behaviour. -/
theorem c1_reaper_crashes_on_inflight_task :
    (healthCheckTick c1State 100).1 = true ∧
    dictGet (healthCheckTick c1State 100).2.nodes "w" = some c1Node ∧
    (healthCheckTick c1State 100).2.scheduler.taskQueue = [c1Task] ∧
    dictGet (healthCheckTick c1State 100).2.scheduler.pendingTasks "t1" = some c1Task ∧
    (healthCheckTick c1State 100).2.scheduler.runningTasks = [] :=
  ⟨rfl, rfl, rfl, rfl, rfl⟩

theorem take_append_self {α : Type} (l₁ l₂ : List α) : (l₁ ++ l₂).take l₁.length = l₁ := by
  simp

theorem drop_append_self {α : Type} (l₁ l₂ : List α) : (l₁ ++ l₂).drop l₁.length = l₂ := by
  simp

theorem recvExact_append (l₁ l₂ : List Nat) :
    recvExact (l₁ ++ l₂) l₁.length = some (l₁, l₂) := by
  unfold recvExact
  rw [if_pos (by simp)]
  rw [take_append_self, drop_append_self]

theorem recvExact_all (l : List Nat) : recvExact l l.length = some (l, []) := by
  unfold recvExact
  rw [if_pos le_rfl]
  simp

theorem readFrame_no_length_check (payload : List Nat)
    (h : payload.length = bytesToNatBE [1, 0, 0, 1]) :
    readFrame ([1, 0, 0, 1] ++ payload) = some (payload, []) := by
  have h₁ : recvExact ([1, 0, 0, 1] ++ payload) 4 = some ([1, 0, 0, 1], payload) :=
    recvExact_append [1, 0, 0, 1] payload
  have h₂ : recvExact payload (bytesToNatBE [1, 0, 0, 1]) = some (payload, []) := by
    have hh := recvExact_all payload
    rwa [h] at hh
  unfold readFrame
  rw [h₁]
  simp only [h₂]

/-- C8 (code bug): the connection handler enforces no frame-length cap.
A frame whose 4-byte big-endian length field `[1, 0, 0, 1]` decodes to
16 MiB + 1 — exceeding the suggested 16 MiB cap — is not treated as a
framing failure: the handler reads the entire payload and hands it on to
message processing instead of closing the connection. -/
theorem c8_oversize_frame_read_not_rejected :
    16 * 1024 * 1024 < bytesToNatBE [1, 0, 0, 1] ∧
    readFrame ([1, 0, 0, 1] ++ List.replicate (bytesToNatBE [1, 0, 0, 1]) 97) =
      some (List.replicate (bytesToNatBE [1, 0, 0, 1]) 97, []) := by
  constructor
  · have hb : bytesToNatBE [1, 0, 0, 1] = 16777217 := rfl
    rw [hb]
    norm_num
  · exact readFrame_no_length_check (List.replicate (bytesToNatBE [1, 0, 0, 1]) 97)
      (List.length_replicate _ _)

theorem dictGet_foldl_deps_not_mem (tasks : List Task)
    (acc : List (String × List String)) (k : String) (h : k ∉ tasks.map Task.id) :
    dictGet (tasks.foldl (fun deps t => dictSet deps t.id t.dependsOn) acc) k =
      dictGet acc k := by
  induction tasks generalizing acc with
  | nil => rfl
  | cons t rest ih =>
    simp only [List.map_cons, List.mem_cons, not_or] at h
    rw [List.foldl_cons, ih _ h.2, dictGet_dictSet_ne _ _ _ _ h.1]

theorem buildDependencies_get_aux (tasks : List Task) (t : Task) :
    ∀ acc, t ∈ tasks → (tasks.map Task.id).Nodup →
      dictGet (tasks.foldl (fun deps tk => dictSet deps tk.id tk.dependsOn) acc) t.id =
        some t.dependsOn := by
  induction tasks with
  | nil =>
    intro acc ht _
    cases ht
  | cons x rest ih =>
    intro acc ht hnd
    simp only [List.map_cons, List.nodup_cons] at hnd
    rw [List.foldl_cons]
    rcases List.mem_cons.mp ht with hx | hx
    · subst hx
      rw [dictGet_foldl_deps_not_mem rest _ _ hnd.1, dictGet_dictSet_self]
    · exact ih _ hx hnd.2

theorem buildDependencies_get (tasks : List Task) (t : Task) (ht : t ∈ tasks)
    (hnd : (tasks.map Task.id).Nodup) :
    dictGet (buildDependencies tasks) t.id = some t.dependsOn :=
  buildDependencies_get_aux tasks t [] ht hnd

/-- C2: for a DAG whose task ids are unique (the data-model invariant)
and whose dependency map is the one `_build_dependencies` derives, a
task is in the ready set exactly when it has no recorded result and
every id in its `depends_on` has a recorded result — a condition on the
presence of predecessor results only, never on their `success` flag. -/
theorem c2_ready_tasks_iff (d : DAG) (t : Task)
    (hdep : d.taskDependencies = buildDependencies d.tasks)
    (hnd : (d.tasks.map Task.id).Nodup) (ht : t ∈ d.tasks) :
    t ∈ getReadyTasks d ↔
      dictGet d.taskResults t.id = none ∧
        ∀ dep ∈ t.dependsOn, (dictGet d.taskResults dep).isSome := by
  have hget : dictGet d.taskDependencies t.id = some t.dependsOn := by
    rw [hdep]
    exact buildDependencies_get d.tasks t ht hnd
  unfold getReadyTasks
  rw [List.mem_filter]
  simp [ht, hget, Option.isNone_iff_eq_none, List.all_eq_true]

/-- The DAG `[taskA, taskB]` (with `taskB` depending on `taskA`) after
`taskA`'s result was ingested. -/
def c2Dag : DAG :=
  updateTaskResult (dagInit "d" "lin" [taskA, taskB] 0) "a" resultOk 1

/-- C2 witness: in `c2Dag`, `taskB` is ready since `taskA`'s result is
recorded and `taskB`'s own is not. -/
theorem c2_ready_tasks_iff_witness :
    taskB ∈ getReadyTasks c2Dag ↔
      dictGet c2Dag.taskResults taskB.id = none ∧
        ∀ dep ∈ taskB.dependsOn, (dictGet c2Dag.taskResults dep).isSome :=
  c2_ready_tasks_iff c2Dag taskB rfl (by decide) (by decide)

theorem c10_schedule_fold_blocked (dagId tid : String) (tasks : List Task)
    (sch : TaskScheduler)
    (h : (dictGet sch.pendingTasks tid).isSome ∨ (dictGet sch.runningTasks tid).isSome) :
    (tasks.foldl
        (fun sc t =>
          if (dictGet sc.pendingTasks t.id).isNone &&
              (dictGet sc.runningTasks t.id).isNone then
            addTask sc t dagId
          else sc) sch).taskQueue.filter (fun t => t.id == tid) =
      sch.taskQueue.filter (fun t => t.id == tid) ∧
    dictGet (tasks.foldl
        (fun sc t =>
          if (dictGet sc.pendingTasks t.id).isNone &&
              (dictGet sc.runningTasks t.id).isNone then
            addTask sc t dagId
          else sc) sch).pendingTasks tid = dictGet sch.pendingTasks tid ∧
    dictGet (tasks.foldl
        (fun sc t =>
          if (dictGet sc.pendingTasks t.id).isNone &&
              (dictGet sc.runningTasks t.id).isNone then
            addTask sc t dagId
          else sc) sch).runningTasks tid = dictGet sch.runningTasks tid := by
  induction tasks generalizing sch with
  | nil => exact ⟨rfl, rfl, rfl⟩
  | cons x rest ih =>
    simp only [List.foldl_cons]
    by_cases hg : ((dictGet sch.pendingTasks x.id).isNone &&
        (dictGet sch.runningTasks x.id).isNone) = true
    · rw [if_pos hg]
      have hx : x.id ≠ tid := by
        intro heq
        rw [heq, Bool.and_eq_true, Option.isNone_iff_eq_none,
          Option.isNone_iff_eq_none] at hg
        rcases h with hs | hs
        · rw [hg.1] at hs
          simp at hs
        · rw [hg.2] at hs
          simp at hs
      have e1 : (addTask sch x dagId).taskQueue.filter (fun t => t.id == tid) =
          sch.taskQueue.filter (fun t => t.id == tid) := by
        unfold addTask
        simp [List.filter_append, hx]
      have e2 : dictGet (addTask sch x dagId).pendingTasks tid =
          dictGet sch.pendingTasks tid := by
        unfold addTask
        exact dictGet_dictSet_ne _ _ _ _ (Ne.symm hx)
      have e3 : (addTask sch x dagId).runningTasks = sch.runningTasks := rfl
      have hpres : (dictGet (addTask sch x dagId).pendingTasks tid).isSome ∨
          (dictGet (addTask sch x dagId).runningTasks tid).isSome := by
        rw [e2, e3]
        exact h
      obtain ⟨a1, a2, a3⟩ := ih (addTask sch x dagId) hpres
      refine ⟨a1.trans e1, a2.trans e2, a3.trans ?_⟩
      rw [e3]
    · rw [if_neg hg]
      exact ih sch h

/-- C10: the enqueue guard and the scheduler's indices are keyed by the
bare task id: while some task id is present in `pending_index` or
`in_flight` (say from DAG `D1`), `_schedule_dag_tasks` for any DAG never
enqueues a task with that id (so a second DAG's same-named task is
blocked even when all its dependencies are satisfied): the queue's
entries with that id, and the `pending_index` and `in_flight` entries
under that id, are all left unchanged. -/
theorem c10_bare_task_id_blocks_enqueue (s : ControllerState) (dagId tid : String)
    (h : (dictGet s.scheduler.pendingTasks tid).isSome ∨
      (dictGet s.scheduler.runningTasks tid).isSome) :
    (scheduleDagTasks s dagId).scheduler.taskQueue.filter (fun t => t.id == tid) =
      s.scheduler.taskQueue.filter (fun t => t.id == tid) ∧
    dictGet (scheduleDagTasks s dagId).scheduler.pendingTasks tid =
      dictGet s.scheduler.pendingTasks tid ∧
    dictGet (scheduleDagTasks s dagId).scheduler.runningTasks tid =
      dictGet s.scheduler.runningTasks tid := by
  unfold scheduleDagTasks
  cases hd : dictGet s.dags dagId with
  | none => exact ⟨rfl, rfl, rfl⟩
  | some dag => exact c10_schedule_fold_blocked dagId tid (getReadyTasks dag) s.scheduler h

/-- A second DAG `d2` containing its own task named `a` whose
dependencies are all satisfied (it has none). -/
def c10Dag : DAG := dagInit "d2" "other" [taskA] 0

/-- Controller state where task id `a` is already in `pending_index`
(enqueued for the first DAG) while DAG `d2` also has a ready task `a`. -/
def c10State : ControllerState :=
  { nodes := [], dags := [("d2", c10Dag)],
    scheduler :=
      { taskQueue := [taskA], pendingTasks := [("a", taskA)], runningTasks := [] } }

/-- C10 witness: scheduling `d2` while `a` is pending enqueues nothing
with id `a` and leaves its index entries unchanged. -/
theorem c10_bare_task_id_blocks_enqueue_witness :
    (scheduleDagTasks c10State "d2").scheduler.taskQueue.filter (fun t => t.id == "a") =
      c10State.scheduler.taskQueue.filter (fun t => t.id == "a") ∧
    dictGet (scheduleDagTasks c10State "d2").scheduler.pendingTasks "a" =
      dictGet c10State.scheduler.pendingTasks "a" ∧
    dictGet (scheduleDagTasks c10State "d2").scheduler.runningTasks "a" =
      dictGet c10State.scheduler.runningTasks "a" :=
  c10_bare_task_id_blocks_enqueue c10State "d2" "a" (Or.inl rfl)

/-- A sequence of `update_task_result` ingests `(task_id, result, time)`
applied to a DAG in order. -/
def applyResults (d : DAG) : List (String × TaskResult × Nat) → DAG
  | [] => d
  | op :: rest => applyResults (updateTaskResult d op.1 op.2.1 op.2.2) rest

/-- Invariant tying a DAG's `status` and `completed_at` to the size of
`task_results`, together with the bookkeeping facts (distinct result
keys drawn from the DAG's own task ids; a `pending` DAG has no results)
that make it inductive. -/
def dagInv (d : DAG) : Prop :=
  (d.taskResults.map Prod.fst).Nodup ∧
  (∀ k ∈ d.taskResults.map Prod.fst, k ∈ d.tasks.map Task.id) ∧
  (d.status = "completed" ↔ d.taskResults.length = d.tasks.length) ∧
  (d.completedAt.isSome ↔ d.status = "completed") ∧
  (d.status = "pending" → d.taskResults = [])

theorem dagInv_dagInit (did name : String) (tasks : List Task) (t0 : Nat)
    (hne : tasks ≠ []) : dagInv (dagInit did name tasks t0) := by
  refine ⟨by simp [dagInit], by simp [dagInit], ?_, by simp [dagInit], fun _ => rfl⟩
  simp only [dagInit]
  constructor
  · intro h
    exact absurd h (by decide)
  · intro h
    exact absurd (List.length_eq_zero.mp h.symm) hne

theorem dagInv_updateTaskResult (d : DAG) (tid : String) (r : TaskResult) (now : Nat)
    (hinv : dagInv d) (htid : tid ∈ d.tasks.map Task.id) :
    dagInv (updateTaskResult d tid r now) := by
  obtain ⟨hnd, hsub, hiff, hca, hpend⟩ := hinv
  by_cases hmem : (dictGet d.taskResults tid).isSome
  · -- the ingested id is already recorded: keys and length are unchanged
    have hkeys := keys_dictSet_of_mem d.taskResults tid r hmem
    have hlen := length_dictSet_of_mem d.taskResults tid r hmem
    have hnd' : ((dictSet d.taskResults tid r).map Prod.fst).Nodup := by
      rw [hkeys]
      exact hnd
    have hsub' : ∀ k ∈ (dictSet d.taskResults tid r).map Prod.fst,
        k ∈ d.tasks.map Task.id := by
      rw [hkeys]
      exact hsub
    simp only [updateTaskResult]
    by_cases hb1 : (dictSet d.taskResults tid r).length = d.tasks.length
    · rw [if_pos hb1]
      exact ⟨hnd', hsub', iff_of_true rfl hb1, by simp,
        fun hcon => absurd hcon (show ¬ "completed" = "pending" by decide)⟩
    · rw [if_neg hb1]
      by_cases hb2 : d.status = "pending"
      · rw [if_pos hb2]
        have hnc : ¬ d.completedAt.isSome := fun hs => by
          have hc := hca.mp hs
          rw [hb2] at hc
          exact absurd hc (by decide)
        exact ⟨hnd', hsub', iff_of_false (show ¬ "running" = "completed" by decide) hb1,
          iff_of_false hnc (show ¬ "running" = "completed" by decide),
          fun hcon => absurd hcon (show ¬ "running" = "pending" by decide)⟩
      · rw [if_neg hb2]
        have hnotc : d.status ≠ "completed" := by
          intro hc
          have hl := hiff.mp hc
          rw [hlen] at hb1
          exact hb1 hl
        exact ⟨hnd', hsub', iff_of_false hnotc hb1, hca, fun hcon => absurd hcon hb2⟩
  · -- fresh id: keys grow by `tid`, length by one
    have hnone : dictGet d.taskResults tid = none :=
      Option.not_isSome_iff_eq_none.mp hmem
    have hkeys := keys_dictSet_of_not_mem d.taskResults tid r hnone
    have hlen := length_dictSet_of_not_mem d.taskResults tid r hnone
    have htidnew : tid ∉ d.taskResults.map Prod.fst := fun hmem' =>
      hmem (dictGet_isSome_of_mem_keys d.taskResults tid hmem')
    have hnd' : ((dictSet d.taskResults tid r).map Prod.fst).Nodup := by
      rw [hkeys]
      refine List.Nodup.append hnd (List.nodup_singleton tid) ?_
      intro a ha hb
      rw [List.mem_singleton] at hb
      subst hb
      exact htidnew ha
    have hsub' : ∀ k ∈ (dictSet d.taskResults tid r).map Prod.fst,
        k ∈ d.tasks.map Task.id := by
      rw [hkeys]
      intro k hk
      rcases List.mem_append.mp hk with hk | hk
      · exact hsub k hk
      · rw [List.mem_singleton] at hk
        subst hk
        exact htid
    have hlen_le : (dictSet d.taskResults tid r).length ≤ d.tasks.length := by
      have h := length_le_of_nodup_subset hnd' hsub'
      simpa using h
    simp only [updateTaskResult]
    by_cases hb1 : (dictSet d.taskResults tid r).length = d.tasks.length
    · rw [if_pos hb1]
      exact ⟨hnd', hsub', iff_of_true rfl hb1, by simp,
        fun hcon => absurd hcon (show ¬ "completed" = "pending" by decide)⟩
    · rw [if_neg hb1]
      by_cases hb2 : d.status = "pending"
      · rw [if_pos hb2]
        have hnc : ¬ d.completedAt.isSome := fun hs => by
          have hc := hca.mp hs
          rw [hb2] at hc
          exact absurd hc (by decide)
        exact ⟨hnd', hsub', iff_of_false (show ¬ "running" = "completed" by decide) hb1,
          iff_of_false hnc (show ¬ "running" = "completed" by decide),
          fun hcon => absurd hcon (show ¬ "running" = "pending" by decide)⟩
      · rw [if_neg hb2]
        have hnotc : d.status ≠ "completed" := by
          intro hc
          have hl := hiff.mp hc
          rw [hlen] at hb1
          omega
        exact ⟨hnd', hsub', iff_of_false hnotc hb1, hca, fun hcon => absurd hcon hb2⟩

theorem dagInv_applyResults (ops : List (String × TaskResult × Nat)) (d : DAG)
    (hinv : dagInv d) (hops : ∀ op ∈ ops, op.1 ∈ d.tasks.map Task.id) :
    dagInv (applyResults d ops) := by
  induction ops generalizing d with
  | nil => exact hinv
  | cons op rest ih =>
    simp only [applyResults]
    apply ih
    · exact dagInv_updateTaskResult d op.1 op.2.1 op.2.2 hinv
        (hops op (List.mem_cons_self _ _))
    · intro op' hop'
      rw [tasks_updateTaskResult]
      exact hops op' (List.mem_cons_of_mem _ hop')

/-- C3 counterexample: a DAG submitted with an empty task list already
has `|task_results| = |tasks| = 0`, yet its status is `"pending"` (not
`"completed"`) and `completed_at` is unset, refuting the claimed "if and
only if" for the empty-task case it singles out. -/
theorem c3_counterexample_empty_dag :
    dictGet (handleSubmitDag emptyState "d1" "empty" [] 0).2.dags "d1" =
      some (dagInit "d1" "empty" [] 0) ∧
    (dagInit "d1" "empty" [] 0).taskResults.length =
      (dagInit "d1" "empty" [] 0).tasks.length ∧
    (dagInit "d1" "empty" [] 0).status ≠ "completed" ∧
    (dagInit "d1" "empty" [] 0).completedAt = none := by
  refine ⟨rfl, rfl, ?_, rfl⟩
  decide

/-- C3 (amended): for every DAG with a nonempty task list reachable from
submission by any sequence of result ingests whose task ids belong to
the DAG's own tasks, `status = "completed"` iff
`|task_results| = |tasks|`, and `completed_at` is set iff
`status = "completed"`. (A DAG submitted with an empty task list is the
exception: it stays `"pending"` with `completed_at` unset even though
`|task_results| = |tasks| = 0`.) -/
theorem c3_terminal_stamping (did name : String) (tasks : List Task) (t0 : Nat)
    (ops : List (String × TaskResult × Nat)) (hne : tasks ≠ [])
    (hops : ∀ op ∈ ops, op.1 ∈ tasks.map Task.id) :
    ((applyResults (dagInit did name tasks t0) ops).status = "completed" ↔
      (applyResults (dagInit did name tasks t0) ops).taskResults.length =
        (applyResults (dagInit did name tasks t0) ops).tasks.length) ∧
    ((applyResults (dagInit did name tasks t0) ops).completedAt.isSome ↔
      (applyResults (dagInit did name tasks t0) ops).status = "completed") := by
  have h := dagInv_applyResults ops (dagInit did name tasks t0)
    (dagInv_dagInit did name tasks t0 hne) hops
  exact ⟨h.2.2.1, h.2.2.2.1⟩

/-- C3 witness: the two-task DAG ingesting results for `a` then `b`
satisfies both equivalences (it is in fact completed). -/
theorem c3_terminal_stamping_witness :
    ((applyResults (dagInit "d" "lin" [taskA, taskB] 0)
        [("a", resultOk, 1), ("b", resultOk, 2)]).status = "completed" ↔
      (applyResults (dagInit "d" "lin" [taskA, taskB] 0)
        [("a", resultOk, 1), ("b", resultOk, 2)]).taskResults.length =
        (applyResults (dagInit "d" "lin" [taskA, taskB] 0)
          [("a", resultOk, 1), ("b", resultOk, 2)]).tasks.length) ∧
    ((applyResults (dagInit "d" "lin" [taskA, taskB] 0)
        [("a", resultOk, 1), ("b", resultOk, 2)]).completedAt.isSome ↔
      (applyResults (dagInit "d" "lin" [taskA, taskB] 0)
        [("a", resultOk, 1), ("b", resultOk, 2)]).status = "completed") :=
  c3_terminal_stamping "d" "lin" [taskA, taskB] 0
    [("a", resultOk, 1), ("b", resultOk, 2)] (by decide) (by decide)

end Bxthre3
